import Mathlib

/-!
Verification of the four-bar linkage position analysis in
`pyscript/generate_figures.py`.

Field arithmetic of the script is carried out here in `ℚ`.  The
transcendental primitives used by the script (`np.cos`, `np.sin`,
`np.sqrt`, `np.arctan`) together with the constant `np.pi` are abstracted
into a record `Trig` of rational functions, so every theorem below
quantifies over all possible behaviours of those primitives while the
algebraic combinations and the control flow are exactly those of the
source.  Python `None` results are modelled with `Option`; the `np.nan`
sentinel written by the sweep loop is modelled as `none`.
-/

set_option linter.unusedVariables false

/-- Record of the transcendental primitives the script calls. -/
structure Trig where
  cos : ℚ → ℚ
  sin : ℚ → ℚ
  sqrt : ℚ → ℚ
  atan : ℚ → ℚ
  pi : ℚ

/-- Embedding of `np.radians`: degrees to radians, `x * pi / 180`. -/
def radians (T : Trig) (x : ℚ) : ℚ := x * T.pi / 180

/-- Embedding of `np.degrees`: radians to degrees, `x * 180 / pi`. -/
def degrees (T : Trig) (x : ℚ) : ℚ := x * 180 / T.pi

/-- Convergence tolerance, `tol = 1e-9` (source line 56). -/
def tol : ℚ := 1 / 1000000000

/-- Singularity threshold on the Jacobian determinant, the literal `1e-9`
of source line 84. -/
def detTol : ℚ := 1 / 1000000000

/-- Iteration cap, `max_iter = 100` (source line 57). -/
def max_iter : ℕ := 100

/-- Residual `f1 = r2*cos(theta2) + r3*cos(theta3) - r4*cos(theta4) - r1`
(source line 63).  The pair `p` is `(theta3, theta4)`. -/
def f1 (T : Trig) (r1 r2 r3 r4 theta2 : ℚ) (p : ℚ × ℚ) : ℚ :=
  r2 * T.cos theta2 + r3 * T.cos p.1 - r4 * T.cos p.2 - r1

/-- Residual `f2 = r2*sin(theta2) + r3*sin(theta3) - r4*sin(theta4)`
(source line 64). -/
def f2 (T : Trig) (r1 r2 r3 r4 theta2 : ℚ) (p : ℚ × ℚ) : ℚ :=
  r2 * T.sin theta2 + r3 * T.sin p.1 - r4 * T.sin p.2

/-- Error norm `sqrt(f1**2 + f2**2)` (source line 66). -/
def errorNorm (T : Trig) (r1 r2 r3 r4 theta2 : ℚ) (p : ℚ × ℚ) : ℚ :=
  T.sqrt (f1 T r1 r2 r3 r4 theta2 p ^ 2 + f2 T r1 r2 r3 r4 theta2 p ^ 2)

/-- Jacobian entry `J11 = -r3*sin(theta3)` (source line 77). -/
def J11 (T : Trig) (r1 r2 r3 r4 : ℚ) (p : ℚ × ℚ) : ℚ := -r3 * T.sin p.1

/-- Jacobian entry `J12 = r4*sin(theta4)` (source line 78). -/
def J12 (T : Trig) (r1 r2 r3 r4 : ℚ) (p : ℚ × ℚ) : ℚ := r4 * T.sin p.2

/-- Jacobian entry `J21 = r3*cos(theta3)` (source line 79). -/
def J21 (T : Trig) (r1 r2 r3 r4 : ℚ) (p : ℚ × ℚ) : ℚ := r3 * T.cos p.1

/-- Jacobian entry `J22 = -r4*cos(theta4)` (source line 80). -/
def J22 (T : Trig) (r1 r2 r3 r4 : ℚ) (p : ℚ × ℚ) : ℚ := -r4 * T.cos p.2

/-- Determinant `det = J11*J22 - J12*J21` (source line 82). -/
def det (T : Trig) (r1 r2 r3 r4 : ℚ) (p : ℚ × ℚ) : ℚ :=
  J11 T r1 r2 r3 r4 p * J22 T r1 r2 r3 r4 p -
    J12 T r1 r2 r3 r4 p * J21 T r1 r2 r3 r4 p

/-- Cramer update `d_theta3 = ((-f1)*J22 - (-f2)*J12) / det` (source
line 91). -/
def d_theta3 (T : Trig) (r1 r2 r3 r4 theta2 : ℚ) (p : ℚ × ℚ) : ℚ :=
  ((-f1 T r1 r2 r3 r4 theta2 p) * J22 T r1 r2 r3 r4 p -
    (-f2 T r1 r2 r3 r4 theta2 p) * J12 T r1 r2 r3 r4 p) / det T r1 r2 r3 r4 p

/-- Cramer update `d_theta4 = (J11*(-f2) - J21*(-f1)) / det` (source
line 92). -/
def d_theta4 (T : Trig) (r1 r2 r3 r4 theta2 : ℚ) (p : ℚ × ℚ) : ℚ :=
  (J11 T r1 r2 r3 r4 p * (-f2 T r1 r2 r3 r4 theta2 p) -
    J21 T r1 r2 r3 r4 p * (-f1 T r1 r2 r3 r4 theta2 p)) / det T r1 r2 r3 r4 p

/-- One Newton update, `theta3 += d_theta3; theta4 += d_theta4` (source
lines 94 and 95). -/
def newtonStep (T : Trig) (r1 r2 r3 r4 theta2 : ℚ) (p : ℚ × ℚ) : ℚ × ℚ :=
  (p.1 + d_theta3 T r1 r2 r3 r4 theta2 p, p.2 + d_theta4 T r1 r2 r3 r4 theta2 p)

/-- Convergence test of source line 71: `abs(f1) < tol and abs(f2) < tol`. -/
abbrev tolMet (T : Trig) (r1 r2 r3 r4 theta2 : ℚ) (p : ℚ × ℚ) : Prop :=
  |f1 T r1 r2 r3 r4 theta2 p| < tol ∧ |f2 T r1 r2 r3 r4 theta2 p| < tol

/-- Singularity test of source line 84: `abs(det) < 1e-9`. -/
abbrev singular (T : Trig) (r1 r2 r3 r4 : ℚ) (p : ℚ × ℚ) : Prop :=
  |det T r1 r2 r3 r4 p| < detTol

/-- Result of the raw iteration loop of `newton_raphson_4bar`; the history
list is meaningful only when tracking is on. -/
structure RawResult where
  theta3 : ℚ
  theta4 : ℚ
  converged : Bool
  history : List (ℕ × ℚ)
  deriving DecidableEq

/-- The loop of source lines 61 to 95: each pass appends the error norm to
the history when tracking (line 69, before the convergence check of line
71), returns on convergence (line 71) or on a singular Jacobian (line 84),
and otherwise applies the Newton update and continues. -/
def nrGo (T : Trig) (r1 r2 r3 r4 theta2 : ℚ) (track : Bool) :
    ℕ → ℕ → ℚ × ℚ → List (ℕ × ℚ) → RawResult
  | 0, _, p, hist => ⟨p.1, p.2, false, hist⟩
  | fuel + 1, iter, p, hist =>
    let hist' :=
      if track then hist ++ [(iter, errorNorm T r1 r2 r3 r4 theta2 p)] else hist
    if tolMet T r1 r2 r3 r4 theta2 p then ⟨p.1, p.2, true, hist'⟩
    else if singular T r1 r2 r3 r4 p then ⟨p.1, p.2, false, hist'⟩
    else nrGo T r1 r2 r3 r4 theta2 track fuel (iter + 1)
      (newtonStep T r1 r2 r3 r4 theta2 p) hist'

/-- Outcome of one solve: angles, convergence flag, optional history, as
returned by `newton_raphson_4bar` (the function returns a 3-tuple when not
tracking and a 4-tuple when tracking; both shapes are captured by the
`Option` history field). -/
structure SolveOutcome where
  theta3 : ℚ
  theta4 : ℚ
  converged : Bool
  history : Option (List (ℕ × ℚ))
  deriving DecidableEq

/-- Embedding of `newton_raphson_4bar` (source lines 27 to 100):
`theta2 = np.radians(theta2_deg)`, then the Newton loop with
`max_iter = 100` starting from `init_guess`. -/
def newton_raphson_4bar (T : Trig) (r1 r2 r3 r4 theta2_deg : ℚ)
    (init_guess : ℚ × ℚ) (track_convergence : Bool) : SolveOutcome :=
  let theta2 := radians T theta2_deg
  let R := nrGo T r1 r2 r3 r4 theta2 track_convergence max_iter 0 init_guess []
  ⟨R.theta3, R.theta4, R.converged,
    if track_convergence then some R.history else none⟩

/-- Iterate of the Newton update: the angles at the start of iteration `n`
of the loop, provided the loop has not stopped before iteration `n`. -/
def nrIterate (T : Trig) (r1 r2 r3 r4 theta2 : ℚ) (init : ℚ × ℚ) (n : ℕ) :
    ℚ × ℚ :=
  (newtonStep T r1 r2 r3 r4 theta2)^[n] init

/-- The loop actually reaches the start of iteration `k`: no earlier
iteration converged or hit a singular Jacobian. -/
def reaches (T : Trig) (r1 r2 r3 r4 theta2 : ℚ) (init : ℚ × ℚ) (k : ℕ) :
    Prop :=
  ∀ j, j < k →
    ¬ tolMet T r1 r2 r3 r4 theta2 (nrIterate T r1 r2 r3 r4 theta2 init j) ∧
    ¬ singular T r1 r2 r3 r4 (nrIterate T r1 r2 r3 r4 theta2 init j)

instance (T : Trig) (r1 r2 r3 r4 theta2 : ℚ) (init : ℚ × ℚ) (k : ℕ) :
    Decidable (reaches T r1 r2 r3 r4 theta2 init k) := by
  unfold reaches
  exact Nat.decidableBallLT k fun j h =>
    ¬ tolMet T r1 r2 r3 r4 theta2 (nrIterate T r1 r2 r3 r4 theta2 init j) ∧
    ¬ singular T r1 r2 r3 r4 (nrIterate T r1 r2 r3 r4 theta2 init j)

/-- Coefficient `A = cos(theta2) - K1 - K2*cos(theta2) + K3` of
`analytical_solution` (source lines 111 to 115), with
`K1 = r1/r2`, `K2 = r1/r4`, `K3 = (r1^2+r2^2+r3^2-r4^2)/(2*r2*r3)` and
`theta2 = np.radians(theta2_deg)`. -/
def asA (T : Trig) (r1 r2 r3 r4 theta2_deg : ℚ) : ℚ :=
  let theta2 := radians T theta2_deg
  let K1 := r1 / r2
  let K2 := r1 / r4
  let K3 := (r1 ^ 2 + r2 ^ 2 + r3 ^ 2 - r4 ^ 2) / (2 * r2 * r3)
  T.cos theta2 - K1 - K2 * T.cos theta2 + K3

/-- Coefficient `B = -2*sin(theta2)` of `analytical_solution` (source
line 116). -/
def asB (T : Trig) (r1 r2 r3 r4 theta2_deg : ℚ) : ℚ :=
  -2 * T.sin (radians T theta2_deg)

/-- Coefficient `C = K1 - (K2+1)*cos(theta2) + K3` of
`analytical_solution` (source line 117). -/
def asC (T : Trig) (r1 r2 r3 r4 theta2_deg : ℚ) : ℚ :=
  let theta2 := radians T theta2_deg
  let K1 := r1 / r2
  let K2 := r1 / r4
  let K3 := (r1 ^ 2 + r2 ^ 2 + r3 ^ 2 - r4 ^ 2) / (2 * r2 * r3)
  K1 - (K2 + 1) * T.cos theta2 + K3

/-- First discriminant `B**2 - 4*A*C` (source line 120). -/
def asDisc (T : Trig) (r1 r2 r3 r4 theta2_deg : ℚ) : ℚ :=
  asB T r1 r2 r3 r4 theta2_deg ^ 2 -
    4 * asA T r1 r2 r3 r4 theta2_deg * asC T r1 r2 r3 r4 theta2_deg

/-- Root `theta4_solution1 = 2*arctan((-B + sqrt(discriminant))/(2*A))`,
the open-configuration branch selected at source lines 125 and 129. -/
def asTheta4 (T : Trig) (r1 r2 r3 r4 theta2_deg : ℚ) : ℚ :=
  2 * T.atan ((-asB T r1 r2 r3 r4 theta2_deg +
    T.sqrt (asDisc T r1 r2 r3 r4 theta2_deg)) /
    (2 * asA T r1 r2 r3 r4 theta2_deg))

/-- The unused crossed-configuration root
`theta4_solution2 = 2*arctan((-B - sqrt(discriminant))/(2*A))` computed at
source line 126 and never selected. -/
def asTheta4Crossed (T : Trig) (r1 r2 r3 r4 theta2_deg : ℚ) : ℚ :=
  2 * T.atan ((-asB T r1 r2 r3 r4 theta2_deg -
    T.sqrt (asDisc T r1 r2 r3 r4 theta2_deg)) /
    (2 * asA T r1 r2 r3 r4 theta2_deg))

/-- Coefficient `D = cos(theta2) - K1 + K4*cos(theta4) + K5` of the
back-solve for `theta3` (source lines 132 to 135), with `K4 = r1/r3` and
`K5 = (r4^2-r1^2-r2^2-r3^2)/(2*r2*r3)`. -/
def asD (T : Trig) (r1 r2 r3 r4 theta2_deg : ℚ) : ℚ :=
  let theta2 := radians T theta2_deg
  let K1 := r1 / r2
  let K4 := r1 / r3
  let K5 := (r4 ^ 2 - r1 ^ 2 - r2 ^ 2 - r3 ^ 2) / (2 * r2 * r3)
  T.cos theta2 - K1 + K4 * T.cos (asTheta4 T r1 r2 r3 r4 theta2_deg) + K5

/-- Coefficient `E = -2*sin(theta2)` of the back-solve (source line 136). -/
def asE (T : Trig) (r1 r2 r3 r4 theta2_deg : ℚ) : ℚ :=
  -2 * T.sin (radians T theta2_deg)

/-- Coefficient `F = K1 + (K4-1)*cos(theta4) + K5` of the back-solve
(source line 137). -/
def asF (T : Trig) (r1 r2 r3 r4 theta2_deg : ℚ) : ℚ :=
  let K1 := r1 / r2
  let K4 := r1 / r3
  let K5 := (r4 ^ 2 - r1 ^ 2 - r2 ^ 2 - r3 ^ 2) / (2 * r2 * r3)
  K1 + (K4 - 1) * T.cos (asTheta4 T r1 r2 r3 r4 theta2_deg) + K5

/-- Second discriminant `E**2 - 4*D*F` (source line 139). -/
def asDisc2 (T : Trig) (r1 r2 r3 r4 theta2_deg : ℚ) : ℚ :=
  asE T r1 r2 r3 r4 theta2_deg ^ 2 -
    4 * asD T r1 r2 r3 r4 theta2_deg * asF T r1 r2 r3 r4 theta2_deg

/-- Back-solved root
`theta3 = 2*arctan((-E - sqrt(discriminant2))/(2*D))` (source line 143). -/
def asTheta3 (T : Trig) (r1 r2 r3 r4 theta2_deg : ℚ) : ℚ :=
  2 * T.atan ((-asE T r1 r2 r3 r4 theta2_deg -
    T.sqrt (asDisc2 T r1 r2 r3 r4 theta2_deg)) /
    (2 * asD T r1 r2 r3 r4 theta2_deg))

/-- Embedding of `analytical_solution` (source lines 103 to 145).  The
returned pair is `(theta3, theta4)` on full success, `(None, None)` when
the first discriminant is negative (source line 122), and the partial pair
`(theta4, None)` when only the second discriminant is negative (source
line 141, where the code writes `return theta4, None`). -/
def analytical_solution (T : Trig) (r1 r2 r3 r4 theta2_deg : ℚ) :
    Option ℚ × Option ℚ :=
  if asDisc T r1 r2 r3 r4 theta2_deg < 0 then (none, none)
  else if asDisc2 T r1 r2 r3 r4 theta2_deg < 0 then
    (some (asTheta4 T r1 r2 r3 r4 theta2_deg), none)
  else
    (some (asTheta3 T r1 r2 r3 r4 theta2_deg),
      some (asTheta4 T r1 r2 r3 r4 theta2_deg))

/-- Warm-start state of the sweep loop of `generate_figure_a` (source
lines 169 to 179): `sweepGuess i` is the value of `current_guess` when the
sample of index `i` is solved.  `ts` is the ordered sample sequence
(`theta2_range` in the source) and `g0` the guess chosen for the first
sample.  A converged sample installs its own solution as the next guess
(source line 176); a failed sample leaves the guess unchanged. -/
def sweepGuess (T : Trig) (r1 r2 r3 r4 : ℚ) (ts : ℕ → ℚ) (g0 : ℚ × ℚ) :
    ℕ → ℚ × ℚ
  | 0 => g0
  | i + 1 =>
    let R := newton_raphson_4bar T r1 r2 r3 r4 (ts i)
      (sweepGuess T r1 r2 r3 r4 ts g0 i) false
    if R.converged then (R.theta3, R.theta4)
    else sweepGuess T r1 r2 r3 r4 ts g0 i

/-- The solver call made for sample `i` of the sweep (source line 170). -/
def sweepOutcome (T : Trig) (r1 r2 r3 r4 : ℚ) (ts : ℕ → ℚ) (g0 : ℚ × ℚ)
    (i : ℕ) : SolveOutcome :=
  newton_raphson_4bar T r1 r2 r3 r4 (ts i)
    (sweepGuess T r1 r2 r3 r4 ts g0 i) false

/-- The value the sweep records for sample `i`: the solved angles in
degrees on convergence (source lines 173 and 174), the missing sentinel
(`np.nan`, modelled as `none`) on failure (source lines 178 and 179). -/
def sweepOut (T : Trig) (r1 r2 r3 r4 : ℚ) (ts : ℕ → ℚ) (g0 : ℚ × ℚ)
    (i : ℕ) : Option (ℚ × ℚ) :=
  if (sweepOutcome T r1 r2 r3 r4 ts g0 i).converged then
    some (degrees T (sweepOutcome T r1 r2 r3 r4 ts g0 i).theta3,
      degrees T (sweepOutcome T r1 r2 r3 r4 ts g0 i).theta4)
  else none

/-- Initial guess of `generate_figure_a` for the first sample (source
lines 162 to 167): the analytical solution at the first sample, or the
fixed fallback `(np.radians(45), np.radians(45))` when either component of
the analytical solution is `None`. -/
def figureAInitialGuess (T : Trig) (r1 r2 r3 r4 t0 : ℚ) : ℚ × ℚ :=
  match analytical_solution T r1 r2 r3 r4 t0 with
  | (some a, some b) => (a, b)
  | _ => (radians T 45, radians T 45)

/-- Concrete primitives with all transcendental functions zero, used for
evaluating the embedding on explicit inputs. -/
def trigZero : Trig := ⟨fun _ => 0, fun _ => 0, fun _ => 0, fun _ => 0, 180⟩

/-- Concrete primitives with constant cosine and identity sine. -/
def trigLin : Trig := ⟨fun _ => 1, fun x => x, fun _ => 0, fun _ => 0, 180⟩

/-- Concrete primitives with identity cosine, square root and arctangent
and zero sine. -/
def trigIdZ : Trig := ⟨fun x => x, fun _ => 0, fun x => x, fun x => x, 180⟩

/-- Concrete primitives with constant cosine one and zero sine. -/
def trigOne : Trig := ⟨fun _ => 1, fun _ => 0, fun _ => 0, fun _ => 0, 180⟩

/-- Concrete sign-dependent primitives under which the Newton iteration
oscillates forever between two states. -/
def trigFlip : Trig :=
  ⟨fun x => if x < 0 then 1 else 0, fun x => if x < 0 then 0 else 1,
    fun _ => 0, fun _ => 0, 180⟩

/-- Unfolding of one pass of the Newton loop. -/
theorem nrGo_succ (T : Trig) (r1 r2 r3 r4 theta2 : ℚ) (track : Bool)
    (fuel iter : ℕ) (p : ℚ × ℚ) (hist : List (ℕ × ℚ)) :
    nrGo T r1 r2 r3 r4 theta2 track (fuel + 1) iter p hist =
      (let hist' :=
        if track then hist ++ [(iter, errorNorm T r1 r2 r3 r4 theta2 p)]
        else hist
      if tolMet T r1 r2 r3 r4 theta2 p then ⟨p.1, p.2, true, hist'⟩
      else if singular T r1 r2 r3 r4 p then ⟨p.1, p.2, false, hist'⟩
      else nrGo T r1 r2 r3 r4 theta2 track fuel (iter + 1)
        (newtonStep T r1 r2 r3 r4 theta2 p) hist') := rfl

theorem nrIterate_zero (T : Trig) (r1 r2 r3 r4 theta2 : ℚ) (p : ℚ × ℚ) :
    nrIterate T r1 r2 r3 r4 theta2 p 0 = p := rfl

/-- Shifting the start of the iterate sequence by one step. -/
theorem nrIterate_shift (T : Trig) (r1 r2 r3 r4 theta2 : ℚ) (p : ℚ × ℚ)
    (j : ℕ) :
    nrIterate T r1 r2 r3 r4 theta2 (newtonStep T r1 r2 r3 r4 theta2 p) j =
      nrIterate T r1 r2 r3 r4 theta2 p (j + 1) :=
  (Function.iterate_succ_apply (newtonStep T r1 r2 r3 r4 theta2) j p).symm

theorem reaches_zero (T : Trig) (r1 r2 r3 r4 theta2 : ℚ) (p : ℚ × ℚ) :
    reaches T r1 r2 r3 r4 theta2 p 0 :=
  fun j hj => absurd hj (Nat.not_lt_zero j)

/-- A run that survives the first pass reaches iteration `k + 1` exactly
when the updated state reaches iteration `k`. -/
theorem reaches_step (T : Trig) (r1 r2 r3 r4 theta2 : ℚ) (p : ℚ × ℚ)
    (k : ℕ) (h : reaches T r1 r2 r3 r4 theta2 p (k + 1)) :
    reaches T r1 r2 r3 r4 theta2 (newtonStep T r1 r2 r3 r4 theta2 p) k := by
  intro j hj
  rw [nrIterate_shift]
  exact h (j + 1) (by omega)

theorem reaches_succ_of (T : Trig) (r1 r2 r3 r4 theta2 : ℚ) (p : ℚ × ℚ)
    (k : ℕ) (h1 : ¬ tolMet T r1 r2 r3 r4 theta2 p)
    (h2 : ¬ singular T r1 r2 r3 r4 p)
    (h : reaches T r1 r2 r3 r4 theta2 (newtonStep T r1 r2 r3 r4 theta2 p) k) :
    reaches T r1 r2 r3 r4 theta2 p (k + 1) := by
  intro j hj
  cases j with
  | zero => exact ⟨h1, h2⟩
  | succ j =>
    have := h j (by omega)
    rwa [nrIterate_shift] at this

/-- If the loop reaches iteration `k` and the tolerance test passes there,
the loop returns the iteration-`k` angles with `converged = true`. -/
theorem nrGo_stop_tol (T : Trig) (r1 r2 r3 r4 theta2 : ℚ) (track : Bool) :
    ∀ (k fuel iter : ℕ) (p : ℚ × ℚ) (hist : List (ℕ × ℚ)),
      k < fuel →
      reaches T r1 r2 r3 r4 theta2 p k →
      tolMet T r1 r2 r3 r4 theta2 (nrIterate T r1 r2 r3 r4 theta2 p k) →
      (nrGo T r1 r2 r3 r4 theta2 track fuel iter p hist).theta3 =
          (nrIterate T r1 r2 r3 r4 theta2 p k).1 ∧
        (nrGo T r1 r2 r3 r4 theta2 track fuel iter p hist).theta4 =
          (nrIterate T r1 r2 r3 r4 theta2 p k).2 ∧
        (nrGo T r1 r2 r3 r4 theta2 track fuel iter p hist).converged = true := by
  intro k
  induction k with
  | zero =>
    intro fuel iter p hist hk hreach htol
    obtain ⟨fuel, rfl⟩ : ∃ m, fuel = m + 1 :=
      ⟨fuel - 1, by omega⟩
    rw [nrIterate_zero] at htol
    rw [nrGo_succ]
    simp only [if_pos htol]
    exact ⟨rfl, rfl, trivial⟩
  | succ k ih =>
    intro fuel iter p hist hk hreach htol
    obtain ⟨fuel, rfl⟩ : ∃ m, fuel = m + 1 :=
      ⟨fuel - 1, by omega⟩
    obtain ⟨h1, h2⟩ := hreach 0 (by omega)
    rw [nrIterate_zero] at h1 h2
    rw [nrGo_succ]
    simp only [if_neg h1, if_neg h2]
    have hshift := nrIterate_shift T r1 r2 r3 r4 theta2 p k
    have := ih fuel (iter + 1) (newtonStep T r1 r2 r3 r4 theta2 p)
      (if track then hist ++ [(iter, errorNorm T r1 r2 r3 r4 theta2 p)]
        else hist)
      (by omega) (reaches_step T r1 r2 r3 r4 theta2 p k hreach)
      (by rwa [hshift])
    rwa [hshift] at this

/-- If the loop reaches iteration `k`, the tolerance test fails there but
the determinant test fires, the loop returns the iteration-`k` angles with
`converged = false`. -/
theorem nrGo_stop_sing (T : Trig) (r1 r2 r3 r4 theta2 : ℚ) (track : Bool) :
    ∀ (k fuel iter : ℕ) (p : ℚ × ℚ) (hist : List (ℕ × ℚ)),
      k < fuel →
      reaches T r1 r2 r3 r4 theta2 p k →
      ¬ tolMet T r1 r2 r3 r4 theta2 (nrIterate T r1 r2 r3 r4 theta2 p k) →
      singular T r1 r2 r3 r4 (nrIterate T r1 r2 r3 r4 theta2 p k) →
      (nrGo T r1 r2 r3 r4 theta2 track fuel iter p hist).theta3 =
          (nrIterate T r1 r2 r3 r4 theta2 p k).1 ∧
        (nrGo T r1 r2 r3 r4 theta2 track fuel iter p hist).theta4 =
          (nrIterate T r1 r2 r3 r4 theta2 p k).2 ∧
        (nrGo T r1 r2 r3 r4 theta2 track fuel iter p hist).converged = false := by
  intro k
  induction k with
  | zero =>
    intro fuel iter p hist hk hreach htol hsing
    obtain ⟨fuel, rfl⟩ : ∃ m, fuel = m + 1 :=
      ⟨fuel - 1, by omega⟩
    rw [nrIterate_zero] at htol hsing
    rw [nrGo_succ]
    simp only [if_neg htol, if_pos hsing]
    exact ⟨rfl, rfl, trivial⟩
  | succ k ih =>
    intro fuel iter p hist hk hreach htol hsing
    obtain ⟨fuel, rfl⟩ : ∃ m, fuel = m + 1 :=
      ⟨fuel - 1, by omega⟩
    obtain ⟨h1, h2⟩ := hreach 0 (by omega)
    rw [nrIterate_zero] at h1 h2
    rw [nrGo_succ]
    simp only [if_neg h1, if_neg h2]
    have hshift := nrIterate_shift T r1 r2 r3 r4 theta2 p k
    have := ih fuel (iter + 1) (newtonStep T r1 r2 r3 r4 theta2 p)
      (if track then hist ++ [(iter, errorNorm T r1 r2 r3 r4 theta2 p)]
        else hist)
      (by omega) (reaches_step T r1 r2 r3 r4 theta2 p k hreach)
      (by rwa [hshift]) (by rwa [hshift])
    rwa [hshift] at this

/-- If no pass of the loop converges or hits a singularity, the loop runs
out of fuel and returns the state after `fuel` Newton updates with
`converged = false`. -/
theorem nrGo_exhaust (T : Trig) (r1 r2 r3 r4 theta2 : ℚ) (track : Bool) :
    ∀ (fuel iter : ℕ) (p : ℚ × ℚ) (hist : List (ℕ × ℚ)),
      reaches T r1 r2 r3 r4 theta2 p fuel →
      (nrGo T r1 r2 r3 r4 theta2 track fuel iter p hist).theta3 =
          (nrIterate T r1 r2 r3 r4 theta2 p fuel).1 ∧
        (nrGo T r1 r2 r3 r4 theta2 track fuel iter p hist).theta4 =
          (nrIterate T r1 r2 r3 r4 theta2 p fuel).2 ∧
        (nrGo T r1 r2 r3 r4 theta2 track fuel iter p hist).converged = false := by
  intro fuel
  induction fuel with
  | zero =>
    intro iter p hist hreach
    exact ⟨rfl, rfl, rfl⟩
  | succ fuel ih =>
    intro iter p hist hreach
    obtain ⟨h1, h2⟩ := hreach 0 (by omega)
    rw [nrIterate_zero] at h1 h2
    rw [nrGo_succ]
    simp only [if_neg h1, if_neg h2]
    have hshift := nrIterate_shift T r1 r2 r3 r4 theta2 p fuel
    have := ih (iter + 1) (newtonStep T r1 r2 r3 r4 theta2 p)
      (if track then hist ++ [(iter, errorNorm T r1 r2 r3 r4 theta2 p)]
        else hist)
      (reaches_step T r1 r2 r3 r4 theta2 p fuel hreach)
    rwa [hshift] at this

/-- The loop reports convergence exactly when some reached pass satisfies
the tolerance test. -/
theorem nrGo_converged_iff (T : Trig) (r1 r2 r3 r4 theta2 : ℚ)
    (track : Bool) :
    ∀ (fuel iter : ℕ) (p : ℚ × ℚ) (hist : List (ℕ × ℚ)),
      (nrGo T r1 r2 r3 r4 theta2 track fuel iter p hist).converged = true ↔
        ∃ k, k < fuel ∧ reaches T r1 r2 r3 r4 theta2 p k ∧
          tolMet T r1 r2 r3 r4 theta2 (nrIterate T r1 r2 r3 r4 theta2 p k) := by
  intro fuel
  induction fuel with
  | zero =>
    intro iter p hist
    constructor
    · intro h
      exact absurd h (by simp [nrGo])
    · rintro ⟨k, hk, -, -⟩
      exact absurd hk (by omega)
  | succ fuel ih =>
    intro iter p hist
    constructor
    · intro h
      by_cases h1 : tolMet T r1 r2 r3 r4 theta2 p
      · exact ⟨0, by omega, reaches_zero T r1 r2 r3 r4 theta2 p,
          by rwa [nrIterate_zero]⟩
      · by_cases h2 : singular T r1 r2 r3 r4 p
        · rw [nrGo_succ] at h
          simp only [if_neg h1, if_pos h2] at h
          exact absurd h (by simp)
        · rw [nrGo_succ] at h
          simp only [if_neg h1, if_neg h2] at h
          obtain ⟨k, hk, hreach, htol⟩ := (ih _ _ _).mp h
          refine ⟨k + 1, by omega,
            reaches_succ_of T r1 r2 r3 r4 theta2 p k h1 h2 hreach, ?_⟩
          rwa [nrIterate_shift] at htol
    · rintro ⟨k, hk, hreach, htol⟩
      exact (nrGo_stop_tol T r1 r2 r3 r4 theta2 track k (fuel + 1) iter p
        hist hk hreach htol).2.2

/-- With tracking on, the history produced by the loop extends the incoming
history with exactly one `(index, error norm)` entry for each pass the loop
examined, indices counting up from `iter`; at least one pass is examined
whenever fuel remains. -/
theorem nrGo_history (T : Trig) (r1 r2 r3 r4 theta2 : ℚ) :
    ∀ (fuel iter : ℕ) (p : ℚ × ℚ) (hist : List (ℕ × ℚ)),
      ∃ n, n ≤ fuel ∧ (0 < fuel → 0 < n) ∧
        (nrGo T r1 r2 r3 r4 theta2 true fuel iter p hist).history =
          hist ++ (List.range n).map
            (fun j => (iter + j,
              errorNorm T r1 r2 r3 r4 theta2
                (nrIterate T r1 r2 r3 r4 theta2 p j))) := by
  intro fuel
  induction fuel with
  | zero =>
    intro iter p hist
    exact ⟨0, le_refl 0, fun h => absurd h (by omega), by simp [nrGo]⟩
  | succ fuel ih =>
    intro iter p hist
    by_cases h1 : tolMet T r1 r2 r3 r4 theta2 p
    · refine ⟨1, by omega, fun _ => by omega, ?_⟩
      rw [nrGo_succ]
      simp only [if_pos h1, if_pos trivial]
      simp [List.range_succ, nrIterate_zero]
    · by_cases h2 : singular T r1 r2 r3 r4 p
      · refine ⟨1, by omega, fun _ => by omega, ?_⟩
        rw [nrGo_succ]
        simp only [if_neg h1, if_pos h2, if_pos trivial]
        simp [List.range_succ, nrIterate_zero]
      · obtain ⟨m, hm, -, hrec⟩ := ih (iter + 1)
          (newtonStep T r1 r2 r3 r4 theta2 p)
          (hist ++ [(iter, errorNorm T r1 r2 r3 r4 theta2 p)])
        refine ⟨m + 1, by omega, fun _ => by omega, ?_⟩
        rw [nrGo_succ]
        simp only [if_neg h1, if_neg h2, if_pos trivial]
        have hmap : List.map
            (fun j => (iter + 1 + j,
              errorNorm T r1 r2 r3 r4 theta2
                (nrIterate T r1 r2 r3 r4 theta2
                  (newtonStep T r1 r2 r3 r4 theta2 p) j)))
            (List.range m) =
          List.map
            ((fun j => (iter + j,
              errorNorm T r1 r2 r3 r4 theta2
                (nrIterate T r1 r2 r3 r4 theta2 p j))) ∘ Nat.succ)
            (List.range m) := by
          refine List.map_congr_left fun a ha => ?_
          simp only [Function.comp_apply]
          rw [nrIterate_shift]
          have hadd : iter + 1 + a = iter + (a + 1) := by omega
          rw [hadd]
        rw [hrec, hmap, List.range_succ_eq_map, List.map_cons, List.map_map,
          List.append_assoc, List.singleton_append]
        simp [nrIterate_zero]

/-- C6: with both discriminants non-negative, `analytical_solution` takes
the open-configuration root `theta4 = 2*atan((-B + sqrt(disc))/(2A))` (the
root with `-sqrt` is never used) and back-solves
`theta3 = 2*atan((-E - sqrt(disc2))/(2D))`, where `D`, `E`, `F` are built
from `K4 = r1/r3` and `K5 = (r4^2-r1^2-r2^2-r3^2)/(2*r2*r3)`. -/
theorem analytical_open_branch (T : Trig) (r1 r2 r3 r4 theta2_deg : ℚ)
    (h1 : 0 ≤ asDisc T r1 r2 r3 r4 theta2_deg)
    (h2 : 0 ≤ asDisc2 T r1 r2 r3 r4 theta2_deg) :
    analytical_solution T r1 r2 r3 r4 theta2_deg =
      (some (2 * T.atan ((-asE T r1 r2 r3 r4 theta2_deg -
          T.sqrt (asDisc2 T r1 r2 r3 r4 theta2_deg)) /
          (2 * asD T r1 r2 r3 r4 theta2_deg))),
        some (2 * T.atan ((-asB T r1 r2 r3 r4 theta2_deg +
          T.sqrt (asDisc T r1 r2 r3 r4 theta2_deg)) /
          (2 * asA T r1 r2 r3 r4 theta2_deg)))) := by
  unfold analytical_solution
  rw [if_neg (not_lt.mpr h1), if_neg (not_lt.mpr h2)]
  rfl

/-- C7: with a negative first discriminant, `analytical_solution` returns
the no-solution outcome `(None, None)`; in this embedding the function is
total, so no exception is possible. -/
theorem analytical_no_solution (T : Trig) (r1 r2 r3 r4 theta2_deg : ℚ)
    (h : asDisc T r1 r2 r3 r4 theta2_deg < 0) :
    analytical_solution T r1 r2 r3 r4 theta2_deg = (none, none) := by
  unfold analytical_solution
  rw [if_pos h]

/-- C10: when only the second discriminant is negative, the partial result
puts the computed `theta4` in the FIRST slot of the pair (the slot that
holds `theta3` on a full solution) and `None` in the second. -/
theorem analytical_partial_pair (T : Trig) (r1 r2 r3 r4 theta2_deg : ℚ)
    (h1 : 0 ≤ asDisc T r1 r2 r3 r4 theta2_deg)
    (h2 : asDisc2 T r1 r2 r3 r4 theta2_deg < 0) :
    analytical_solution T r1 r2 r3 r4 theta2_deg =
      (some (asTheta4 T r1 r2 r3 r4 theta2_deg), none) := by
  unfold analytical_solution
  rw [if_neg (not_lt.mpr h1), if_pos h2]

/-- Unfolding of the sweep warm-start state at a successor sample. -/
theorem sweepGuess_succ (T : Trig) (r1 r2 r3 r4 : ℚ) (ts : ℕ → ℚ)
    (g0 : ℚ × ℚ) (i : ℕ) :
    sweepGuess T r1 r2 r3 r4 ts g0 (i + 1) =
      (if (sweepOutcome T r1 r2 r3 r4 ts g0 i).converged then
        ((sweepOutcome T r1 r2 r3 r4 ts g0 i).theta3,
          (sweepOutcome T r1 r2 r3 r4 ts g0 i).theta4)
      else sweepGuess T r1 r2 r3 r4 ts g0 i) := rfl

/-- C5: warm-start invariants of the sweep loop.  The guess used for a
sample is the most recent converged sample's solved angles; a failed
sample records the missing sentinel and leaves the seed unchanged; a
converged sample records its angles in degrees and installs them as the
next seed. -/
theorem sweep_warm_start (T : Trig) (r1 r2 r3 r4 : ℚ) (ts : ℕ → ℚ)
    (g0 : ℚ × ℚ) :
    (∀ i j, j < i →
      (sweepOutcome T r1 r2 r3 r4 ts g0 j).converged = true →
      (∀ l, j < l → l < i →
        (sweepOutcome T r1 r2 r3 r4 ts g0 l).converged = false) →
      sweepGuess T r1 r2 r3 r4 ts g0 i =
        ((sweepOutcome T r1 r2 r3 r4 ts g0 j).theta3,
          (sweepOutcome T r1 r2 r3 r4 ts g0 j).theta4)) ∧
    (∀ i, (sweepOutcome T r1 r2 r3 r4 ts g0 i).converged = false →
      sweepOut T r1 r2 r3 r4 ts g0 i = none ∧
      sweepGuess T r1 r2 r3 r4 ts g0 (i + 1) =
        sweepGuess T r1 r2 r3 r4 ts g0 i) ∧
    (∀ i, (sweepOutcome T r1 r2 r3 r4 ts g0 i).converged = true →
      sweepOut T r1 r2 r3 r4 ts g0 i =
        some (degrees T (sweepOutcome T r1 r2 r3 r4 ts g0 i).theta3,
          degrees T (sweepOutcome T r1 r2 r3 r4 ts g0 i).theta4) ∧
      sweepGuess T r1 r2 r3 r4 ts g0 (i + 1) =
        ((sweepOutcome T r1 r2 r3 r4 ts g0 i).theta3,
          (sweepOutcome T r1 r2 r3 r4 ts g0 i).theta4)) := by
  refine ⟨?_, ?_, ?_⟩
  · intro i j
    induction i with
    | zero => omega
    | succ n ih =>
      intro hji hconv hmid
      rcases (by omega : j = n ∨ j < n) with rfl | hlt
      · rw [sweepGuess_succ]
        simp [hconv]
      · have hn := hmid n hlt (Nat.lt_succ_self n)
        rw [sweepGuess_succ]
        simp only [hn, Bool.false_eq_true, if_false]
        exact ih hlt hconv (fun l hl1 hl2 => hmid l hl1 (by omega))
  · intro i hfail
    constructor
    · simp [sweepOut, hfail]
    · rw [sweepGuess_succ]
      simp [hfail]
  · intro i hsucc
    constructor
    · simp [sweepOut, hsucc]
    · rw [sweepGuess_succ]
      simp [hsucc]

/-- C8: if either component of the analytical solution at the first sample
is missing, the sweep seeds the first sample with the fixed fallback guess
of 45 degrees converted to radians, still runs the Newton solver there,
and records that solve's own outcome. -/
theorem sweep_fallback_first_sample (T : Trig) (r1 r2 r3 r4 : ℚ)
    (ts : ℕ → ℚ)
    (h : (analytical_solution T r1 r2 r3 r4 (ts 0)).1 = none ∨
      (analytical_solution T r1 r2 r3 r4 (ts 0)).2 = none) :
    figureAInitialGuess T r1 r2 r3 r4 (ts 0) =
      (radians T 45, radians T 45) ∧
    sweepOut T r1 r2 r3 r4 ts (figureAInitialGuess T r1 r2 r3 r4 (ts 0)) 0 =
      (if (newton_raphson_4bar T r1 r2 r3 r4 (ts 0)
          (radians T 45, radians T 45) false).converged then
        some (degrees T (newton_raphson_4bar T r1 r2 r3 r4 (ts 0)
            (radians T 45, radians T 45) false).theta3,
          degrees T (newton_raphson_4bar T r1 r2 r3 r4 (ts 0)
            (radians T 45, radians T 45) false).theta4)
      else none) := by
  have hg : figureAInitialGuess T r1 r2 r3 r4 (ts 0) =
      (radians T 45, radians T 45) := by
    unfold figureAInitialGuess
    rcases hA : analytical_solution T r1 r2 r3 r4 (ts 0) with ⟨a, b⟩
    rw [hA] at h
    cases a with
    | none => rfl
    | some x =>
      cases b with
      | none => rfl
      | some y => simp at h
  refine ⟨hg, ?_⟩
  unfold sweepOut sweepOutcome
  have hg0 : sweepGuess T r1 r2 r3 r4 ts
      (figureAInitialGuess T r1 r2 r3 r4 (ts 0)) 0 =
      (radians T 45, radians T 45) := hg
  rw [hg0]

/-- C1: the solver returns `converged = true` exactly when the tolerance
test on both residuals passes at the start of some reached iteration
(before that iteration's Jacobian is computed), and in that case the
returned angles are that iteration's current angles, unmodified. -/
theorem newton_converged_characterization (T : Trig)
    (r1 r2 r3 r4 theta2_deg : ℚ) (g : ℚ × ℚ) (track : Bool) :
    ((newton_raphson_4bar T r1 r2 r3 r4 theta2_deg g track).converged =
        true ↔
      ∃ k, k < max_iter ∧
        reaches T r1 r2 r3 r4 (radians T theta2_deg) g k ∧
        tolMet T r1 r2 r3 r4 (radians T theta2_deg)
          (nrIterate T r1 r2 r3 r4 (radians T theta2_deg) g k)) ∧
    (∀ k, k < max_iter →
      reaches T r1 r2 r3 r4 (radians T theta2_deg) g k →
      tolMet T r1 r2 r3 r4 (radians T theta2_deg)
        (nrIterate T r1 r2 r3 r4 (radians T theta2_deg) g k) →
      (newton_raphson_4bar T r1 r2 r3 r4 theta2_deg g track).theta3 =
          (nrIterate T r1 r2 r3 r4 (radians T theta2_deg) g k).1 ∧
        (newton_raphson_4bar T r1 r2 r3 r4 theta2_deg g track).theta4 =
          (nrIterate T r1 r2 r3 r4 (radians T theta2_deg) g k).2) := by
  constructor
  · exact nrGo_converged_iff T r1 r2 r3 r4 (radians T theta2_deg) track
      max_iter 0 g []
  · intro k hk hreach htol
    have h := nrGo_stop_tol T r1 r2 r3 r4 (radians T theta2_deg) track
      k max_iter 0 g [] hk hreach htol
    exact ⟨h.1, h.2.1⟩

/-- C2: with a non-zero determinant, the Cramer increments of one Newton
iteration solve the linear system `J * delta = -F` exactly, the update adds
them to the current angles, and the determinant and error norm are the
stated combinations of the residuals and the analytic Jacobian entries. -/
theorem newton_iteration_formulas (T : Trig) (r1 r2 r3 r4 theta2 : ℚ)
    (p : ℚ × ℚ) (h : det T r1 r2 r3 r4 p ≠ 0) :
    J11 T r1 r2 r3 r4 p * d_theta3 T r1 r2 r3 r4 theta2 p +
        J12 T r1 r2 r3 r4 p * d_theta4 T r1 r2 r3 r4 theta2 p =
        -f1 T r1 r2 r3 r4 theta2 p ∧
      J21 T r1 r2 r3 r4 p * d_theta3 T r1 r2 r3 r4 theta2 p +
        J22 T r1 r2 r3 r4 p * d_theta4 T r1 r2 r3 r4 theta2 p =
        -f2 T r1 r2 r3 r4 theta2 p ∧
      newtonStep T r1 r2 r3 r4 theta2 p =
        (p.1 + d_theta3 T r1 r2 r3 r4 theta2 p,
          p.2 + d_theta4 T r1 r2 r3 r4 theta2 p) ∧
      det T r1 r2 r3 r4 p =
        J11 T r1 r2 r3 r4 p * J22 T r1 r2 r3 r4 p -
          J12 T r1 r2 r3 r4 p * J21 T r1 r2 r3 r4 p ∧
      errorNorm T r1 r2 r3 r4 theta2 p =
        T.sqrt (f1 T r1 r2 r3 r4 theta2 p ^ 2 +
          f2 T r1 r2 r3 r4 theta2 p ^ 2) := by
  have h' : J11 T r1 r2 r3 r4 p * J22 T r1 r2 r3 r4 p -
      J12 T r1 r2 r3 r4 p * J21 T r1 r2 r3 r4 p ≠ 0 := h
  refine ⟨?_, ?_, rfl, rfl, rfl⟩
  · simp only [d_theta3, d_theta4, det]
    field_simp
    ring
  · simp only [d_theta3, d_theta4, det]
    field_simp
    ring

/-- C3: if a reached iteration fails the tolerance test and its Jacobian
determinant falls below the threshold, the solver returns immediately with
`converged = false` and the angles current at that iteration, with no
further Newton update; the embedding is a total function, so the condition
is reported only through the returned flag. -/
theorem newton_singular_stop (T : Trig) (r1 r2 r3 r4 theta2_deg : ℚ)
    (g : ℚ × ℚ) (track : Bool) (k : ℕ) (hk : k < max_iter)
    (hreach : reaches T r1 r2 r3 r4 (radians T theta2_deg) g k)
    (htol : ¬ tolMet T r1 r2 r3 r4 (radians T theta2_deg)
      (nrIterate T r1 r2 r3 r4 (radians T theta2_deg) g k))
    (hsing : singular T r1 r2 r3 r4
      (nrIterate T r1 r2 r3 r4 (radians T theta2_deg) g k)) :
    (newton_raphson_4bar T r1 r2 r3 r4 theta2_deg g track).converged =
        false ∧
      (newton_raphson_4bar T r1 r2 r3 r4 theta2_deg g track).theta3 =
        (nrIterate T r1 r2 r3 r4 (radians T theta2_deg) g k).1 ∧
      (newton_raphson_4bar T r1 r2 r3 r4 theta2_deg g track).theta4 =
        (nrIterate T r1 r2 r3 r4 (radians T theta2_deg) g k).2 := by
  have h := nrGo_stop_sing T r1 r2 r3 r4 (radians T theta2_deg) track
    k max_iter 0 g [] hk hreach htol hsing
  exact ⟨h.2.2, h.1, h.2.1⟩

/-- C4: the solver always terminates within `max_iter = 100` iterations
(the recorded history never exceeds 100 entries), and when no iteration
among the 100 satisfies the tolerance and none is singular, it returns
`converged = false` with the iterate produced by the 100th Newton
update. -/
theorem newton_exhaustion (T : Trig) (r1 r2 r3 r4 theta2_deg : ℚ)
    (g : ℚ × ℚ) (track : Bool)
    (h : reaches T r1 r2 r3 r4 (radians T theta2_deg) g max_iter) :
    (newton_raphson_4bar T r1 r2 r3 r4 theta2_deg g track).converged =
        false ∧
      (newton_raphson_4bar T r1 r2 r3 r4 theta2_deg g track).theta3 =
        (nrIterate T r1 r2 r3 r4 (radians T theta2_deg) g max_iter).1 ∧
      (newton_raphson_4bar T r1 r2 r3 r4 theta2_deg g track).theta4 =
        (nrIterate T r1 r2 r3 r4 (radians T theta2_deg) g max_iter).2 ∧
      (∀ l, (newton_raphson_4bar T r1 r2 r3 r4 theta2_deg g true).history =
        some l → l.length ≤ max_iter) := by
  have hx := nrGo_exhaust T r1 r2 r3 r4 (radians T theta2_deg) track
    max_iter 0 g [] h
  refine ⟨hx.2.2, hx.1, hx.2.1, ?_⟩
  intro l hl
  obtain ⟨n, hn, -, hh⟩ := nrGo_history T r1 r2 r3 r4 (radians T theta2_deg)
    max_iter 0 g []
  have : some (nrGo T r1 r2 r3 r4 (radians T theta2_deg) true
      max_iter 0 g []).history = some l := hl
  have hl' : l = (nrGo T r1 r2 r3 r4 (radians T theta2_deg) true
      max_iter 0 g []).history := (Option.some_injective _ this).symm
  rw [hl', hh]
  simp [hn]

/-- Strengthened history lemma: with tracking on and fuel remaining, the
produced history extends the incoming one with the entries of iterations
`iter` to `iter + n - 1` for the exact number `n` of passes the loop
examined: every pass before the last one continued (neither converged nor
singular), and the last recorded pass is the stopping one — the pass that
met the tolerance when the loop converged, the singular pass, or the final
fuel-exhausting pass. -/
theorem nrGo_history_run (T : Trig) (r1 r2 r3 r4 theta2 : ℚ) :
    ∀ (fuel iter : ℕ) (p : ℚ × ℚ) (hist : List (ℕ × ℚ)), 0 < fuel →
      ∃ n, 1 ≤ n ∧ n ≤ fuel ∧
        (nrGo T r1 r2 r3 r4 theta2 true fuel iter p hist).history =
          hist ++ (List.range n).map
            (fun j => (iter + j,
              errorNorm T r1 r2 r3 r4 theta2
                (nrIterate T r1 r2 r3 r4 theta2 p j))) ∧
        reaches T r1 r2 r3 r4 theta2 p (n - 1) ∧
        ((nrGo T r1 r2 r3 r4 theta2 true fuel iter p hist).converged =
              true ∧
            tolMet T r1 r2 r3 r4 theta2
              (nrIterate T r1 r2 r3 r4 theta2 p (n - 1)) ∨
          (nrGo T r1 r2 r3 r4 theta2 true fuel iter p hist).converged =
              false ∧
            ¬ tolMet T r1 r2 r3 r4 theta2
              (nrIterate T r1 r2 r3 r4 theta2 p (n - 1)) ∧
            singular T r1 r2 r3 r4
              (nrIterate T r1 r2 r3 r4 theta2 p (n - 1)) ∨
          (nrGo T r1 r2 r3 r4 theta2 true fuel iter p hist).converged =
              false ∧
            n = fuel ∧ reaches T r1 r2 r3 r4 theta2 p fuel) := by
  intro fuel
  induction fuel with
  | zero => intro iter p hist h; omega
  | succ fuel ih =>
    intro iter p hist hpos
    by_cases h1 : tolMet T r1 r2 r3 r4 theta2 p
    · have hres : nrGo T r1 r2 r3 r4 theta2 true (fuel + 1) iter p hist =
          ⟨p.1, p.2, true,
            hist ++ [(iter, errorNorm T r1 r2 r3 r4 theta2 p)]⟩ := by
        rw [nrGo_succ]
        simp only [if_pos h1, if_pos trivial]
      refine ⟨1, le_refl 1, by omega, ?_, ?_, ?_⟩
      · rw [hres]
        simp [List.range_succ, nrIterate_zero]
      · intro j hj
        omega
      · left
        exact ⟨by rw [hres], by simpa [nrIterate_zero] using h1⟩
    · by_cases h2 : singular T r1 r2 r3 r4 p
      · have hres : nrGo T r1 r2 r3 r4 theta2 true (fuel + 1) iter p hist =
            ⟨p.1, p.2, false,
              hist ++ [(iter, errorNorm T r1 r2 r3 r4 theta2 p)]⟩ := by
          rw [nrGo_succ]
          simp only [if_neg h1, if_pos h2, if_pos trivial]
        refine ⟨1, le_refl 1, by omega, ?_, ?_, ?_⟩
        · rw [hres]
          simp [List.range_succ, nrIterate_zero]
        · intro j hj
          omega
        · right
          left
          exact ⟨by rw [hres], by simpa [nrIterate_zero] using h1,
            by simpa [nrIterate_zero] using h2⟩
      · have hres : nrGo T r1 r2 r3 r4 theta2 true (fuel + 1) iter p hist =
            nrGo T r1 r2 r3 r4 theta2 true fuel (iter + 1)
              (newtonStep T r1 r2 r3 r4 theta2 p)
              (hist ++ [(iter, errorNorm T r1 r2 r3 r4 theta2 p)]) := by
          rw [nrGo_succ]
          simp only [if_neg h1, if_neg h2, if_pos trivial]
        rcases Nat.eq_zero_or_pos fuel with rfl | hfpos
        · refine ⟨1, le_refl 1, le_refl 1, ?_, ?_, ?_⟩
          · rw [hres]
            show hist ++ [(iter, errorNorm T r1 r2 r3 r4 theta2 p)] = _
            simp [List.range_succ, nrIterate_zero]
          · intro j hj
            omega
          · right
            right
            refine ⟨by rw [hres]; rfl, rfl, ?_⟩
            intro j hj
            have hj0 : j = 0 := by omega
            rw [hj0, nrIterate_zero]
            exact ⟨h1, h2⟩
        · obtain ⟨m, hm1, hmf, hhist, hreach, hdisj⟩ := ih (iter + 1)
            (newtonStep T r1 r2 r3 r4 theta2 p)
            (hist ++ [(iter, errorNorm T r1 r2 r3 r4 theta2 p)]) hfpos
          have hm' : m - 1 + 1 = m := by omega
          have hshift : nrIterate T r1 r2 r3 r4 theta2
              (newtonStep T r1 r2 r3 r4 theta2 p) (m - 1) =
              nrIterate T r1 r2 r3 r4 theta2 p m := by
            rw [nrIterate_shift, hm']
          refine ⟨m + 1, by omega, by omega, ?_, ?_, ?_⟩
          · have hmap : List.map
                (fun j => (iter + 1 + j,
                  errorNorm T r1 r2 r3 r4 theta2
                    (nrIterate T r1 r2 r3 r4 theta2
                      (newtonStep T r1 r2 r3 r4 theta2 p) j)))
                (List.range m) =
              List.map
                ((fun j => (iter + j,
                  errorNorm T r1 r2 r3 r4 theta2
                    (nrIterate T r1 r2 r3 r4 theta2 p j))) ∘ Nat.succ)
                (List.range m) := by
              refine List.map_congr_left fun a ha => ?_
              simp only [Function.comp_apply]
              rw [nrIterate_shift]
              have hadd : iter + 1 + a = iter + (a + 1) := by omega
              rw [hadd]
            rw [hres, hhist, hmap, List.range_succ_eq_map, List.map_cons,
              List.map_map, List.append_assoc, List.singleton_append]
            simp [nrIterate_zero]
          · have hco : reaches T r1 r2 r3 r4 theta2 p (m - 1 + 1) :=
              reaches_succ_of T r1 r2 r3 r4 theta2 p (m - 1) h1 h2 hreach
            rw [hm'] at hco
            simpa using hco
          · have hc : (nrGo T r1 r2 r3 r4 theta2 true (fuel + 1) iter p
                hist).converged =
                (nrGo T r1 r2 r3 r4 theta2 true fuel (iter + 1)
                  (newtonStep T r1 r2 r3 r4 theta2 p)
                  (hist ++ [(iter, errorNorm T r1 r2 r3 r4 theta2 p)])
                  ).converged := by rw [hres]
            rcases hdisj with ⟨hcv, ht⟩ | ⟨hcv, ht, hs⟩ | ⟨hcv, hn, hr⟩
            · left
              refine ⟨by rw [hc, hcv], ?_⟩
              rw [hshift] at ht
              simpa using ht
            · right
              left
              refine ⟨by rw [hc, hcv], ?_, ?_⟩
              · rw [hshift] at ht
                simpa using ht
              · rw [hshift] at hs
                simpa using hs
            · right
              right
              refine ⟨by rw [hc, hcv], by omega, ?_⟩
              have : reaches T r1 r2 r3 r4 theta2 p (fuel + 1) :=
                reaches_succ_of T r1 r2 r3 r4 theta2 p fuel h1 h2 hr
              exact this

/-- C9: with tracking on, the returned history lists exactly one
`(index, error norm)` entry for each of the `n` iterations the loop
examined, indices 0 to `n - 1` in order, and is never empty: every
iteration before the last entry continued (neither converged nor
singular), and the iteration of the last entry is the stopping one —
the iteration that triggered convergence when `converged` is true,
the singular iteration, or the 100th iteration when the budget is
exhausted. -/
theorem newton_history_per_iteration (T : Trig)
    (r1 r2 r3 r4 theta2_deg : ℚ) (g : ℚ × ℚ) :
    ∃ n, 1 ≤ n ∧ n ≤ max_iter ∧
      (newton_raphson_4bar T r1 r2 r3 r4 theta2_deg g true).history =
        some ((List.range n).map fun i =>
          (i, errorNorm T r1 r2 r3 r4 (radians T theta2_deg)
            (nrIterate T r1 r2 r3 r4 (radians T theta2_deg) g i))) ∧
      reaches T r1 r2 r3 r4 (radians T theta2_deg) g (n - 1) ∧
      ((newton_raphson_4bar T r1 r2 r3 r4 theta2_deg g true).converged =
            true ∧
          tolMet T r1 r2 r3 r4 (radians T theta2_deg)
            (nrIterate T r1 r2 r3 r4 (radians T theta2_deg) g (n - 1)) ∨
        (newton_raphson_4bar T r1 r2 r3 r4 theta2_deg g true).converged =
            false ∧
          ¬ tolMet T r1 r2 r3 r4 (radians T theta2_deg)
            (nrIterate T r1 r2 r3 r4 (radians T theta2_deg) g (n - 1)) ∧
          singular T r1 r2 r3 r4
            (nrIterate T r1 r2 r3 r4 (radians T theta2_deg) g (n - 1)) ∨
        (newton_raphson_4bar T r1 r2 r3 r4 theta2_deg g true).converged =
            false ∧
          n = max_iter ∧
          reaches T r1 r2 r3 r4 (radians T theta2_deg) g max_iter) := by
  obtain ⟨n, h1, h2, hh, hreach, hdisj⟩ := nrGo_history_run T r1 r2 r3 r4
    (radians T theta2_deg) max_iter 0 g [] (by norm_num [max_iter])
  refine ⟨n, h1, h2, ?_, hreach, ?_⟩
  · have hv : (newton_raphson_4bar T r1 r2 r3 r4 theta2_deg g true).history =
        some (nrGo T r1 r2 r3 r4 (radians T theta2_deg) true
          max_iter 0 g []).history := rfl
    rw [hv, hh]
    simp
  · have hc : (newton_raphson_4bar T r1 r2 r3 r4 theta2_deg g
        true).converged =
        (nrGo T r1 r2 r3 r4 (radians T theta2_deg) true
          max_iter 0 g []).converged := rfl
    rw [hc]
    exact hdisj


/-- Successor unfolding of the iterate sequence from the right. -/
theorem nrIterate_succ (T : Trig) (r1 r2 r3 r4 theta2 : ℚ) (p : ℚ × ℚ)
    (n : ℕ) :
    nrIterate T r1 r2 r3 r4 theta2 p (n + 1) =
      newtonStep T r1 r2 r3 r4 theta2
        (nrIterate T r1 r2 r3 r4 theta2 p n) :=
  Function.iterate_succ_apply' (newtonStep T r1 r2 r3 r4 theta2) n p

/-- Under `trigFlip` with the lengths `(3, -3, 1, -1)` and input angle 0,
the Newton iterates oscillate between `(1, -1)` and `(-1, 1)`. -/
theorem trigFlip_orbit (j : ℕ) :
    nrIterate trigFlip 3 (-3) 1 (-1) (radians trigFlip 0) (1, -1) j =
        (1, -1) ∨
      nrIterate trigFlip 3 (-3) 1 (-1) (radians trigFlip 0) (1, -1) j =
        (-1, 1) := by
  induction j with
  | zero => exact Or.inl rfl
  | succ j ih =>
    rcases ih with h | h
    · right
      rw [nrIterate_succ, h]
      norm_num [newtonStep, d_theta3, d_theta4, f1, f2, J11, J12, J21, J22,
        det, radians, trigFlip, Prod.ext_iff]
    · left
      rw [nrIterate_succ, h]
      norm_num [newtonStep, d_theta3, d_theta4, f1, f2, J11, J12, J21, J22,
        det, radians, trigFlip, Prod.ext_iff]

/-- That oscillating run never satisfies the tolerance and never hits the
singularity threshold, for the full iteration budget. -/
theorem trigFlip_reaches :
    reaches trigFlip 3 (-3) 1 (-1) (radians trigFlip 0) (1, -1) max_iter := by
  intro j hj
  rcases trigFlip_orbit j with h | h <;> rw [h] <;>
    constructor <;>
      norm_num [tolMet, singular, f1, f2, J11, J12, J21, J22, det, tol,
        detTol, radians, trigFlip]

/-- Witness for C1 at a concrete input: all-zero primitives and `r1 = 0`
make both residuals vanish at the initial guess, so the solver converges
at iteration 0 and returns the guess unchanged. -/
theorem newton_converged_characterization_witness :
    (newton_raphson_4bar trigZero 0 1 1 1 0 (2, 3) false).theta3 =
        (nrIterate trigZero 0 1 1 1 (radians trigZero 0) (2, 3) 0).1 ∧
      (newton_raphson_4bar trigZero 0 1 1 1 0 (2, 3) false).theta4 =
        (nrIterate trigZero 0 1 1 1 (radians trigZero 0) (2, 3) 0).2 :=
  (newton_converged_characterization trigZero 0 1 1 1 0 (2, 3) false).2 0
    (by norm_num [max_iter])
    (reaches_zero trigZero 0 1 1 1 (radians trigZero 0) (2, 3))
    (by rw [nrIterate_zero]
        norm_num [tolMet, f1, f2, tol, radians, trigZero])

/-- Witness for C2 at a concrete input with non-zero determinant. -/
theorem newton_iteration_formulas_witness :
    J11 trigLin 1 1 1 1 (1, 2) * d_theta3 trigLin 1 1 1 1 0 (1, 2) +
        J12 trigLin 1 1 1 1 (1, 2) * d_theta4 trigLin 1 1 1 1 0 (1, 2) =
        -f1 trigLin 1 1 1 1 0 (1, 2) ∧
      J21 trigLin 1 1 1 1 (1, 2) * d_theta3 trigLin 1 1 1 1 0 (1, 2) +
        J22 trigLin 1 1 1 1 (1, 2) * d_theta4 trigLin 1 1 1 1 0 (1, 2) =
        -f2 trigLin 1 1 1 1 0 (1, 2) ∧
      newtonStep trigLin 1 1 1 1 0 (1, 2) =
        ((1 : ℚ) + d_theta3 trigLin 1 1 1 1 0 (1, 2),
          (2 : ℚ) + d_theta4 trigLin 1 1 1 1 0 (1, 2)) ∧
      det trigLin 1 1 1 1 (1, 2) =
        J11 trigLin 1 1 1 1 (1, 2) * J22 trigLin 1 1 1 1 (1, 2) -
          J12 trigLin 1 1 1 1 (1, 2) * J21 trigLin 1 1 1 1 (1, 2) ∧
      errorNorm trigLin 1 1 1 1 0 (1, 2) =
        trigLin.sqrt (f1 trigLin 1 1 1 1 0 (1, 2) ^ 2 +
          f2 trigLin 1 1 1 1 0 (1, 2) ^ 2) :=
  newton_iteration_formulas trigLin 1 1 1 1 0 (1, 2)
    (by norm_num [det, J11, J12, J21, J22, trigLin])

/-- Witness for C3 at a concrete input: all-zero primitives give a zero
Jacobian determinant at iteration 0 while the residual `f1 = -1` fails the
tolerance, so the solver stops singular with the guess unchanged. -/
theorem newton_singular_stop_witness :
    (newton_raphson_4bar trigZero 1 1 1 1 0 (5, 6) false).converged =
        false ∧
      (newton_raphson_4bar trigZero 1 1 1 1 0 (5, 6) false).theta3 =
        (nrIterate trigZero 1 1 1 1 (radians trigZero 0) (5, 6) 0).1 ∧
      (newton_raphson_4bar trigZero 1 1 1 1 0 (5, 6) false).theta4 =
        (nrIterate trigZero 1 1 1 1 (radians trigZero 0) (5, 6) 0).2 :=
  newton_singular_stop trigZero 1 1 1 1 0 (5, 6) false 0
    (by norm_num [max_iter])
    (reaches_zero trigZero 1 1 1 1 (radians trigZero 0) (5, 6))
    (by rw [nrIterate_zero]
        norm_num [tolMet, f1, f2, tol, radians, trigZero])
    (by rw [nrIterate_zero]
        norm_num [singular, det, J11, J12, J21, J22, detTol, trigZero])

/-- Witness for C4 at a concrete input whose run exhausts all 100
iterations without converging or going singular. -/
theorem newton_exhaustion_witness :
    (newton_raphson_4bar trigFlip 3 (-3) 1 (-1) 0 (1, -1) false).converged =
        false ∧
      (newton_raphson_4bar trigFlip 3 (-3) 1 (-1) 0 (1, -1) false).theta3 =
        (nrIterate trigFlip 3 (-3) 1 (-1) (radians trigFlip 0) (1, -1)
          max_iter).1 ∧
      (newton_raphson_4bar trigFlip 3 (-3) 1 (-1) 0 (1, -1) false).theta4 =
        (nrIterate trigFlip 3 (-3) 1 (-1) (radians trigFlip 0) (1, -1)
          max_iter).2 ∧
      (∀ l, (newton_raphson_4bar trigFlip 3 (-3) 1 (-1) 0 (1, -1)
        true).history = some l → l.length ≤ max_iter) :=
  newton_exhaustion trigFlip 3 (-3) 1 (-1) 0 (1, -1) false trigFlip_reaches

/-- Witness for C5 at a concrete input: sample 0 converges immediately, so
the guess used at sample 1 is exactly sample 0's solved angles. -/
theorem sweep_warm_start_witness :
    sweepGuess trigZero 0 1 1 1 (fun _ => 0) (7, 9) 1 =
      ((sweepOutcome trigZero 0 1 1 1 (fun _ => 0) (7, 9) 0).theta3,
        (sweepOutcome trigZero 0 1 1 1 (fun _ => 0) (7, 9) 0).theta4) := by
  have hconv : (sweepOutcome trigZero 0 1 1 1 (fun _ => 0) (7, 9)
      0).converged = true := by
    have h := nrGo_stop_tol trigZero 0 1 1 1 (radians trigZero 0) false 0
      max_iter 0 (7, 9) [] (by norm_num [max_iter])
      (reaches_zero trigZero 0 1 1 1 (radians trigZero 0) (7, 9))
      (by rw [nrIterate_zero]
          norm_num [tolMet, f1, f2, tol, radians, trigZero])
    exact h.2.2
  exact (sweep_warm_start trigZero 0 1 1 1 (fun _ => 0) (7, 9)).1 1 0
    (by omega) hconv (fun l hl1 hl2 => by omega)

/-- Witness for C6 at a concrete input with both discriminants
non-negative. -/
theorem analytical_open_branch_witness :
    analytical_solution trigIdZ 6 2 5 5 2 =
      (some (2 * trigIdZ.atan ((-asE trigIdZ 6 2 5 5 2 -
          trigIdZ.sqrt (asDisc2 trigIdZ 6 2 5 5 2)) /
          (2 * asD trigIdZ 6 2 5 5 2))),
        some (2 * trigIdZ.atan ((-asB trigIdZ 6 2 5 5 2 +
          trigIdZ.sqrt (asDisc trigIdZ 6 2 5 5 2)) /
          (2 * asA trigIdZ 6 2 5 5 2)))) :=
  analytical_open_branch trigIdZ 6 2 5 5 2
    (by norm_num [asDisc, asA, asB, asC, radians, trigIdZ])
    (by norm_num [asDisc2, asD, asE, asF, asTheta4, asDisc, asA, asB, asC,
      radians, trigIdZ])

/-- Witness for C7 at a concrete input with a negative first
discriminant. -/
theorem analytical_no_solution_witness :
    analytical_solution trigIdZ 6 2 5 5 3 = (none, none) :=
  analytical_no_solution trigIdZ 6 2 5 5 3
    (by norm_num [asDisc, asA, asB, asC, radians, trigIdZ])

/-- Witness for C8 at a concrete input where the analytical solution
reports no solution at the first sample. -/
theorem sweep_fallback_first_sample_witness :
    figureAInitialGuess trigOne 10 1 1 1 0 =
      (radians trigOne 45, radians trigOne 45) ∧
    sweepOut trigOne 10 1 1 1 (fun _ => 0)
      (figureAInitialGuess trigOne 10 1 1 1 0) 0 =
      (if (newton_raphson_4bar trigOne 10 1 1 1 0
          (radians trigOne 45, radians trigOne 45) false).converged then
        some (degrees trigOne (newton_raphson_4bar trigOne 10 1 1 1 0
            (radians trigOne 45, radians trigOne 45) false).theta3,
          degrees trigOne (newton_raphson_4bar trigOne 10 1 1 1 0
            (radians trigOne 45, radians trigOne 45) false).theta4)
      else none) := by
  have hd : asDisc trigOne 10 1 1 1 0 < 0 := by
    norm_num [asDisc, asA, asB, asC, radians, trigOne]
  have hnone : analytical_solution trigOne 10 1 1 1 0 = (none, none) := by
    unfold analytical_solution
    rw [if_pos hd]
  exact sweep_fallback_first_sample trigOne 10 1 1 1 (fun _ => 0)
    (Or.inl (by show (analytical_solution trigOne 10 1 1 1 0).1 = none
                rw [hnone]))

/-- Witness for C10 at a concrete input where only the second discriminant
is negative: the partial pair carries `theta4` in the first slot. -/
theorem analytical_partial_pair_witness :
    analytical_solution trigIdZ 6 2 5 5 0 =
      (some (asTheta4 trigIdZ 6 2 5 5 0), none) :=
  analytical_partial_pair trigIdZ 6 2 5 5 0
    (by norm_num [asDisc, asA, asB, asC, radians, trigIdZ])
    (by norm_num [asDisc2, asD, asE, asF, asTheta4, asDisc, asA, asB, asC,
      radians, trigIdZ])
